import Mathlib

/-!
Verification of the `mcp-wx-chatinsight` server core against its design
specification.  The definitions below are a shallow embedding of
`src/mcp_wx_chatinsight/server.py` and `src/mcp_wx_chatinsight/report.py`:

* Python strings are modelled as Lean `String`, with character-level
  helpers (`pyStrip`, `splitOnDot`) mirroring `str.strip`, `str.split('.')`.
* The `aiomysql` pool registry is modelled as an explicit state
  (`RegistryState`): an association list from database name to an abstract
  pool identifier, plus a counter of pools created so far (fresh pool
  identity and creation count instrumentation).
* Effectful collaborators are oracles passed as function arguments:
  `createFails : String → Bool` says whether `aiomysql.create_pool` raises
  for the given database, `exec : Nat → String → Except String (List Row)`
  is the cursor round-trip on a given pool, and the RAG pipeline of
  `report.py` is an `Except String String`.
* A raised Python exception is an `Except .error` / the error component of
  a result-state pair; handlers return their result together with the
  registry state after the call, so state left behind by a failed
  invocation is visible.
-/

namespace WxChatInsight

/-- Characters removed by Python `str.strip()` as used on the SQL text.
Leading and trailing whitespace characters are removed. -/
def pyStrip (cs : List Char) : List Char :=
  ((cs.dropWhile Char.isWhitespace).reverse.dropWhile Char.isWhitespace).reverse

/-- Embedding of the validation line in the `query` and `report` tools:
`query.strip().upper().startswith('SELECT')` (`server.py` lines 170 and
191). -/
def validate_select (q : String) : Bool :=
  "SELECT".data.isPrefixOf ((pyStrip q.data).map Char.toUpper)

/-- Embedding of Python `str.split('.')` on the character list: the list of
maximal chunks between occurrences of `'.'`. -/
def splitOnDot : List Char → List (List Char)
  | [] => [[]]
  | c :: cs =>
    if c = '.' then [] :: splitOnDot cs
    else
      match splitOnDot cs with
      | [] => [[c]]
      | p :: ps => (c :: p) :: ps

/-- `table_name.split('.')[0]` (`server.py` line 51): the portion of the
name before the first `.`. -/
def extract_db (table_name : String) : String :=
  String.mk ((splitOnDot table_name.data).headD [])

/-- Embedding of Python `'.' in table_name` (`server.py` line 50). -/
def hasDot (table_name : String) : Bool :=
  table_name.data.contains '.'

/-- The mutable state of `DatabaseManager` relevant to the pool registry:
`self.pools` as an insertion-ordered association list from database name to
an abstract pool identifier, plus the number of pools created so far.  A
freshly created pool receives the identifier `created`, so distinct
creations yield distinct pool objects. -/
structure RegistryState where
  pools : List (String × Nat)
  created : Nat
deriving DecidableEq, Repr

/-- The registry as initialised by `DatabaseManager.__init__`
(`self.pools = {}`). -/
def initRegistry : RegistryState := ⟨[], 0⟩

/-- Exceptions a tool handler can raise, corresponding to the `raise`
sites of `server.py`. -/
inductive ToolError where
  /-- `ValueError("只允许 SELECT 查询")` raised by `query`/`report`. -/
  | notSelect
  /-- `ValueError("表名格式错误，请使用 db_name.table_name 格式")` raised by
  `get_pool`. -/
  | badTableFormat
  /-- `aiomysql.create_pool` raised during pool creation. -/
  | poolCreationFailed
  /-- the cursor `execute`/`fetchall` round-trip raised. -/
  | dbError (msg : String)
deriving DecidableEq, Repr

/-- Embedding of `DatabaseManager.get_pool` (`server.py` lines 49-63).
`createFails db` says whether `aiomysql.create_pool(..., db=db, ...)`
raises.  Returns the raised exception or the pool handle, paired with the
registry state after the call. -/
def get_pool (createFails : String → Bool) (s : RegistryState)
    (table_name : String) : Except ToolError Nat × RegistryState :=
  if hasDot table_name then
    let db_name := extract_db table_name
    match s.pools.lookup db_name with
    | some p => (.ok p, s)
    | none =>
      if createFails db_name then (.error .poolCreationFailed, s)
      else (.ok s.created,
            ⟨s.pools ++ [(db_name, s.created)], s.created + 1⟩)
  else (.error .badTableFormat, s)

/-- The registry state left behind by one `get_pool` call. -/
def get_pool_state (createFails : String → Bool) (s : RegistryState)
    (table_name : String) : RegistryState :=
  (get_pool createFails s table_name).2

/-- The registry state after a sequence of `get_pool` calls within one
server lifetime (each call's exception, if any, aborts only that call). -/
def run_get_pools (createFails : String → Bool) (calls : List String)
    (s : RegistryState) : RegistryState :=
  calls.foldl (get_pool_state createFails) s

/-- A fetched row-mapping (column name to value), as produced by
`aiomysql.DictCursor`. -/
abbrev Row := List (String × String)

/-- Embedding of the `query` tool handler (`server.py` lines 169-184).
`exec p q` is the `execute`/`fetchall` round-trip of a cursor acquired
from pool `p`.  Pairs the result (or raised exception) with the registry
state after the call. -/
def queryTool (createFails : String → Bool)
    (exec : Nat → String → Except String (List Row))
    (table_names : List String) (s : RegistryState) (q : String) :
    Except ToolError (List Row) × RegistryState :=
  if validate_select q then
    match get_pool createFails s (table_names.headD "") with
    | (.error e, s') => (.error e, s')
    | (.ok p, s') =>
      match exec p q with
      | .error m => (.error (.dbError m), s')
      | .ok db_results => (.ok db_results, s')
  else (.error .notSelect, s)

/-- Embedding of `DatabaseManager._synthesize_memo` (`server.py` lines
70-87): render the insight memo from the current `self.insights` list. -/
def synthesize_memo (insights : List String) : String :=
  if insights.isEmpty then
    "目前尚未发现任何业务洞察。"
  else
    let insights_str :=
      String.intercalate "\n" (insights.map (fun insight => "- " ++ insight))
    let memo := "📊 业务洞察备忘录 📊\n\n" ++ "关键洞察发现：\n\n" ++ insights_str
    if insights.length > 1 then
      memo ++ "\n总结：\n" ++
        ("分析揭示了" ++ toString insights.length ++
          "个关键业务洞察，这些洞察为业务战略优化和增长提供了机会。")
    else
      memo

/-- The URI under which the memo resource is registered
(`@self.mcp.resource(uri='memo://business_insights', ...)`,
`server.py` line 151). -/
def memoResourceUri : String := "memo://business_insights"

/-- The registered memo resource handler (`server.py` lines 151-153):
reading the resource renders the current memo. -/
def resource_read (insights : List String) : String :=
  synthesize_memo insights

/-- Observable outcome of one `append_insight` tool call (`server.py`
lines 208-225): the insight list after the call, the URI named in the
`send_resource_updated` notification, and the confirmation text
returned to the caller. -/
structure AppendOutcome where
  insights : List String
  notifiedUri : String
  confirmation : String
deriving DecidableEq, Repr

/-- Embedding of the `append_insight` tool handler (`server.py` lines
208-225): append the insight to `self.db_manager.insights`, re-render the
memo, and notify the client that `memo://insights` changed. -/
def append_insight (insights : List String) (insight : String) :
    AppendOutcome :=
  { insights := insights ++ [insight]
  , notifiedUri := "memo://insights"
  , confirmation := "洞察已添加到备忘录" }

/-- Embedding of `report_generate` (`report.py` lines 188-232).  The RAG
pipeline (`initialize_rag`, `ainsert`, `aquery`) is the oracle
`rag : Except String String`: either the generated text or the message of
the exception it raised.  With `promptFlag = true` (the default, and what
the server passes) the function returns the prompt text without touching
the pipeline; otherwise the pipeline's exception is caught by the
`except` clause and converted into the failure string. -/
def report_generate (rag : Except String String) (data : List Row)
    (desc : String) (promptFlag : Bool) : String :=
  if promptFlag then
    "数据背景：" ++ desc ++ "\n" ++
    "请基于上述背景和以下数据，使用`工件工具生成一份结构化的总结报告，内容包括：\n" ++
    "1. 主要主题和核心内容；\n" ++
    "2. 关键发现或亮点；\n" ++
    "3. 存在的问题或风险（如有）；\n" ++
    "4. 未来趋势或建议（如适用）。\n" ++
    "请用简明扼要的语言输出，适用于日报、周报或月报场景。" ++
    "数据：" ++ toString data
  else
    match rag with
    | .ok result => result
    | .error e => "报告生成失败: " ++ e

/-- Embedding of the `report` tool handler (`server.py` lines 189-206):
same validation and query execution as `query`, then the rows and the
stored description go to `report_generate` (with its `prompt` parameter
left at its default `True`). -/
def reportTool (createFails : String → Bool)
    (exec : Nat → String → Except String (List Row))
    (rag : Except String String) (table_names : List String) (desc : String)
    (s : RegistryState) (q : String) :
    Except ToolError String × RegistryState :=
  if validate_select q then
    match get_pool createFails s (table_names.headD "") with
    | (.error e, s') => (.error e, s')
    | (.ok p, s') =>
      match exec p q with
      | .error m => (.error (.dbError m), s')
      | .ok db_results => (.ok (report_generate rag db_results desc true), s')
  else (.error .notSelect, s)

/-! Helper lemmas about the embedded string and registry operations. -/

theorem splitOnDot_ne_nil (cs : List Char) : splitOnDot cs ≠ [] := by
  induction cs with
  | nil => simp [splitOnDot]
  | cons c cs ih =>
    simp only [splitOnDot]
    split
    · simp
    · cases h : splitOnDot cs with
      | nil => simp
      | cons p ps => simp

theorem splitOnDot_headD (cs : List Char) :
    (splitOnDot cs).headD [] = cs.takeWhile (fun c => c != '.') := by
  induction cs with
  | nil => rfl
  | cons c cs ih =>
    simp only [splitOnDot, List.takeWhile_cons]
    by_cases h : c = '.'
    · subst h
      simp
    · rw [if_neg h]
      cases hs : splitOnDot cs with
      | nil => exact absurd hs (splitOnDot_ne_nil cs)
      | cons p ps =>
        rw [hs] at ih
        simp only [List.headD_cons] at ih
        simp [h, ih]

/-- `extract_db` returns exactly the portion of the name before the first
`.` (the whole name when no `.` occurs). -/
theorem extract_db_eq_takeWhile (t : String) :
    extract_db t = String.mk (t.data.takeWhile (fun c => c != '.')) := by
  unfold extract_db
  rw [splitOnDot_headD]

theorem lookup_eq_none_iff (ps : List (String × Nat)) (k : String) :
    ps.lookup k = none ↔ k ∉ ps.map Prod.fst := by
  induction ps with
  | nil => simp
  | cons hd tl ih =>
    simp only [List.lookup, List.map_cons, List.mem_cons]
    by_cases h : k = hd.1
    · simp [h]
    · have : (k == hd.1) = false := by simp [h]
      simp [this, ih, h]

/-- The key invariant of the pool registry: each database name occurs at
most once. -/
def keysNodup (s : RegistryState) : Prop :=
  (s.pools.map Prod.fst).Nodup

theorem keysNodup_get_pool_state (cf : String → Bool) (s : RegistryState)
    (t : String) (h : keysNodup s) : keysNodup (get_pool_state cf s t) := by
  unfold get_pool_state get_pool
  by_cases hd : hasDot t
  · simp only [hd, if_true]
    cases hl : s.pools.lookup (extract_db t) with
    | some p => simpa using h
    | none =>
      by_cases hc : cf (extract_db t)
      · simpa [hc] using h
      · simp only [hc, if_false, Bool.false_eq_true]
        unfold keysNodup at h ⊢
        simp only [List.map_append, List.map_cons, List.map_nil]
        rw [List.nodup_append]
        refine ⟨h, List.nodup_singleton _, ?_⟩
        intro a ha hb
        simp only [List.mem_singleton] at hb
        subst hb
        exact (lookup_eq_none_iff _ _).1 hl ha
  · simpa [hd] using h

theorem keysNodup_run_get_pools (cf : String → Bool) (calls : List String)
    (s : RegistryState) (h : keysNodup s) :
    keysNodup (run_get_pools cf calls s) := by
  induction calls generalizing s with
  | nil => exact h
  | cons c cs ih =>
    exact ih (get_pool_state cf s c) (keysNodup_get_pool_state cf s c h)

theorem pyStrip_append (a r : List Char)
    (h1 : a.dropWhile Char.isWhitespace = a)
    (h2 : a.reverse.dropWhile Char.isWhitespace = a.reverse)
    (hne : a.isEmpty = false) :
    ∃ y, pyStrip (a ++ r) = a ++ y := by
  unfold pyStrip
  rw [List.dropWhile_append, h1, hne]
  simp only [Bool.false_eq_true, if_false, List.reverse_append, List.dropWhile_append]
  by_cases hc : (r.reverse.dropWhile Char.isWhitespace).isEmpty = true
  · rw [if_pos hc, h2, List.reverse_reverse]
    exact ⟨[], by simp⟩
  · rw [if_neg hc, List.reverse_append, List.reverse_reverse]
    exact ⟨(r.reverse.dropWhile Char.isWhitespace).reverse, rfl⟩

/-- Any SQL text whose first nine characters are `SELECTION` passes the
validation: the check is a character-prefix test, not a token test. -/
theorem validate_selection (rest : String) :
    validate_select ("SELECTION" ++ rest) = true := by
  unfold validate_select
  rw [String.data_append]
  obtain ⟨y, hy⟩ := pyStrip_append "SELECTION".data rest.data
    (by decide) (by decide) (by decide)
  rw [hy, List.map_append]
  have hup : "SELECTION".data.map Char.toUpper = "SELECTION".data := by decide
  rw [hup, List.isPrefixOf_iff_prefix]
  have h6 : "SELECT".data <+: "SELECTION".data :=
    List.isPrefixOf_iff_prefix.1 (by decide)
  exact h6.trans (List.prefix_append _ _)

/-! Claim theorems. -/

/-- C1: a query string whose trimmed, upper-cased text does not begin with
`SELECT` makes both the `query` and the `report` tool raise the
"只允许 SELECT 查询" `ValueError` with the registry state unchanged — for
every pool-creation oracle, cursor oracle and starting state, so no pool
is resolved and no database round-trip happens; conversely the validation
never fails for a string that does begin with `SELECT` after
trim/uppercase. -/
theorem non_select_rejected_before_db :
    (∀ (createFails : String → Bool) (exec : Nat → String → Except String (List Row))
        (table_names : List String) (s : RegistryState) (q : String),
        validate_select q = false →
        queryTool createFails exec table_names s q = (.error .notSelect, s))
  ∧ (∀ (createFails : String → Bool) (exec : Nat → String → Except String (List Row))
        (rag : Except String String) (table_names : List String) (desc : String)
        (s : RegistryState) (q : String),
        validate_select q = false →
        reportTool createFails exec rag table_names desc s q = (.error .notSelect, s))
  ∧ (∀ q : String,
        "SELECT".data.isPrefixOf ((pyStrip q.data).map Char.toUpper) = true →
        validate_select q = true) := by
  refine ⟨?_, ?_, ?_⟩
  · intro cf exec tn s q h
    unfold queryTool
    simp [h]
  · intro cf exec rag tn desc s q h
    unfold reportTool
    simp [h]
  · intro q h
    exact h

theorem non_select_rejected_before_db_witness :
    validate_select "DROP TABLE wx_record" = false
  ∧ queryTool (fun _ => false) (fun _ _ => .ok [])
      ["test1.wx_record", "test2.wx_record"] initRegistry "DROP TABLE wx_record"
      = (.error .notSelect, initRegistry)
  ∧ reportTool (fun _ => false) (fun _ _ => .ok []) (.ok "r")
      ["test1.wx_record", "test2.wx_record"] "微信群聊数据" initRegistry
      "DROP TABLE wx_record" = (.error .notSelect, initRegistry)
  ∧ validate_select "  select 1" = true := by
  refine ⟨by decide, ?_, ?_, ?_⟩
  · exact non_select_rejected_before_db.1 _ _ _ _ _ (by decide)
  · exact non_select_rejected_before_db.2.1 _ _ _ _ _ _ _ (by decide)
  · exact non_select_rejected_before_db.2.2 _ (by decide)

/-- C2: within one server lifetime the registry holds at most one pool per
database name (keys of any reachable `pools` mapping are nodup); a call
for a name already present returns the stored pool with the whole state —
including the creation counter — unchanged, and a call for an absent name
creates exactly one fresh pool and stores it under that name. -/
theorem pool_registry_idempotent :
    (∀ (createFails : String → Bool) (calls : List String),
        keysNodup (run_get_pools createFails calls initRegistry))
  ∧ (∀ (createFails : String → Bool) (s : RegistryState) (t : String) (p : Nat),
        hasDot t = true → s.pools.lookup (extract_db t) = some p →
        get_pool createFails s t = (.ok p, s))
  ∧ (∀ (createFails : String → Bool) (s : RegistryState) (t : String),
        hasDot t = true → s.pools.lookup (extract_db t) = none →
        createFails (extract_db t) = false →
        get_pool createFails s t =
          (.ok s.created, ⟨s.pools ++ [(extract_db t, s.created)], s.created + 1⟩)) := by
  refine ⟨?_, ?_, ?_⟩
  · intro cf calls
    refine keysNodup_run_get_pools cf calls initRegistry ?_
    simp [keysNodup, initRegistry]
  · intro cf s t p hd hl
    unfold get_pool
    simp [hd, hl]
  · intro cf s t hd hl hc
    unfold get_pool
    simp [hd, hl, hc]

theorem pool_registry_idempotent_witness :
    keysNodup (run_get_pools (fun _ => false)
      ["test1.wx_record", "test1.wx_record", "test2.wx_record"] initRegistry)
  ∧ get_pool (fun _ => false) ⟨[("test1", 0)], 1⟩ "test1.wx_record"
      = (.ok 0, ⟨[("test1", 0)], 1⟩)
  ∧ get_pool (fun _ => false) ⟨[("test1", 0)], 1⟩ "test2.wx_record"
      = (.ok 1, ⟨[("test1", 0), ("test2", 1)], 2⟩) := by
  refine ⟨pool_registry_idempotent.1 _ _, ?_, ?_⟩
  · exact pool_registry_idempotent.2.1 _ _ _ 0 (by decide) (by decide)
  · exact pool_registry_idempotent.2.2 _ _ _ (by decide) (by decide) (by decide)

/-- C3 counterexample: for the dot-free input `"onlytablename"`,
`get_pool` does not treat the input as a bare database name — it raises
the table-name-format `ValueError` and stores nothing under that key. -/
theorem bare_name_used_as_is_counterexample :
    (get_pool (fun _ => false) initRegistry "onlytablename").1
      = .error .badTableFormat
  ∧ ((get_pool (fun _ => false) initRegistry "onlytablename").2).pools.lookup
      "onlytablename" = none :=
  ⟨rfl, rfl⟩

/-- C3 (amended): every input string without a `.` separator is rejected
by `get_pool` with the table-name-format `ValueError`, leaving the
registry unchanged; it is never used as a bare database name. -/
theorem bare_name_rejected (createFails : String → Bool) (s : RegistryState)
    (t : String) (h : hasDot t = false) :
    get_pool createFails s t = (.error .badTableFormat, s) := by
  unfold get_pool
  simp [h]

theorem bare_name_rejected_witness :
    hasDot "onlytablename" = false
  ∧ get_pool (fun _ => true) initRegistry "onlytablename"
      = (.error .badTableFormat, initRegistry) :=
  ⟨by decide, bare_name_rejected (fun _ => true) initRegistry "onlytablename" (by decide)⟩

/-- C4: a dot-free input makes `get_pool` raise the configuration
`ValueError` with the registry unchanged, for every pool-creation oracle
(so no creation or connection is attempted); for an input containing `.`,
the database name used is exactly the portion before the first `.`. -/
theorem qualified_name_required :
    (∀ (createFails : String → Bool) (s : RegistryState) (t : String),
        hasDot t = false →
        get_pool createFails s t = (.error .badTableFormat, s))
  ∧ (∀ t : String, hasDot t = true →
        extract_db t = String.mk (t.data.takeWhile (fun c => c != '.'))) := by
  refine ⟨?_, ?_⟩
  · intro cf s t h
    unfold get_pool
    simp [h]
  · intro t _
    exact extract_db_eq_takeWhile t

theorem qualified_name_required_witness :
    get_pool (fun _ => true) ⟨[("test1", 0)], 1⟩ "onlytablename"
      = (.error .badTableFormat, ⟨[("test1", 0)], 1⟩)
  ∧ extract_db "test1.wx_record"
      = String.mk ("test1.wx_record".data.takeWhile (fun c => c != '.')) :=
  ⟨qualified_name_required.1 _ _ _ (by decide),
   qualified_name_required.2 "test1.wx_record" (by decide)⟩

/-- C5: rendering the memo is a deterministic function of the insight
list: with zero insights it is the fixed empty-state sentence; with N ≥ 1
insights it is the header followed by the N bullet lines `- <insight>`,
one per insight in insertion order, followed — exactly when N ≥ 2 — by
the summary sentence containing the literal count N. -/
theorem synthesize_memo_spec (insights : List String) :
    (insights.length = 0 →
        synthesize_memo insights = "目前尚未发现任何业务洞察。")
  ∧ (1 ≤ insights.length →
        synthesize_memo insights =
          "📊 业务洞察备忘录 📊\n\n" ++ "关键洞察发现：\n\n" ++
            String.intercalate "\n"
              (insights.map (fun insight => "- " ++ insight)) ++
            (if 2 ≤ insights.length then
              "\n总结：\n" ++ ("分析揭示了" ++ toString insights.length ++
                "个关键业务洞察，这些洞察为业务战略优化和增长提供了机会。")
            else "")) := by
  constructor
  · intro h
    have h0 : insights = [] := List.length_eq_zero.1 h
    subst h0
    rfl
  · intro h
    have hne : insights.isEmpty = false := by
      cases insights with
      | nil => simp at h
      | cons a l => rfl
    unfold synthesize_memo
    simp only [hne, Bool.false_eq_true, if_false]
    by_cases h2 : 2 ≤ insights.length
    · have h2' : insights.length > 1 := h2
      rw [if_pos h2', if_pos h2]
      simp [String.append_assoc]
    · have h2' : ¬ insights.length > 1 := by omega
      rw [if_neg h2', if_neg h2, String.append_empty]

theorem synthesize_memo_spec_witness :
    synthesize_memo [] = "目前尚未发现任何业务洞察。"
  ∧ synthesize_memo ["A", "B"] =
      "📊 业务洞察备忘录 📊\n\n" ++ "关键洞察发现：\n\n" ++
        String.intercalate "\n"
          ((["A", "B"] : List String).map (fun insight => "- " ++ insight)) ++
        (if 2 ≤ (["A", "B"] : List String).length then
          "\n总结：\n" ++ ("分析揭示了" ++ toString (["A", "B"] : List String).length ++
            "个关键业务洞察，这些洞察为业务战略优化和增长提供了机会。")
        else "") :=
  ⟨(synthesize_memo_spec []).1 rfl, (synthesize_memo_spec ["A", "B"]).2 (by decide)⟩

/-- C6: with a validated query, the `query` tool uses only the pool that
`get_pool` resolves for the first configured target (`table_names[0]`):
its outcome is unchanged when the cursor oracle is replaced by any other
oracle agreeing on that pool, and on success it returns exactly the list
of rows the cursor fetched, in order, together with the post-`get_pool`
registry state. -/
theorem query_uses_first_target_pool :
    (∀ (createFails : String → Bool) (exec : Nat → String → Except String (List Row))
        (table_names : List String) (s : RegistryState) (q : String)
        (p : Nat) (s' : RegistryState) (rows : List Row),
        validate_select q = true →
        get_pool createFails s (table_names.headD "") = (.ok p, s') →
        exec p q = .ok rows →
        queryTool createFails exec table_names s q = (.ok rows, s'))
  ∧ (∀ (createFails : String → Bool)
        (exec exec' : Nat → String → Except String (List Row))
        (table_names : List String) (s : RegistryState) (q : String)
        (p : Nat) (s' : RegistryState),
        validate_select q = true →
        get_pool createFails s (table_names.headD "") = (.ok p, s') →
        (∀ qq, exec p qq = exec' p qq) →
        queryTool createFails exec table_names s q
          = queryTool createFails exec' table_names s q) := by
  constructor
  · intro cf exec tn s q p s' rows hv hp he
    unfold queryTool
    simp only [hv, if_true, hp, he]
  · intro cf exec exec' tn s q p s' hv hp hagree
    unfold queryTool
    simp only [hv, if_true, hp, hagree q]

theorem query_uses_first_target_pool_witness :
    queryTool (fun _ => false)
      (fun p _ => if p = 0 then .ok [[("NAME", "alice")], [("NAME", "bob")]]
                  else .error "wrong pool")
      ["test1.wx_record", "test2.wx_record"] initRegistry
      "SELECT DISTINCT NAME FROM test1.wx_record"
      = (.ok [[("NAME", "alice")], [("NAME", "bob")]], ⟨[("test1", 0)], 1⟩) := by
  exact query_uses_first_target_pool.1 _ _ _ _ _ 0 _ _ (by decide) rfl rfl

/-- C7: a failed invocation leaves the shared state consistent: whenever
`get_pool` raises (any error), the registry is exactly as before the
call — in particular when pool creation itself raises — and a successful
`append_insight` call appends exactly one entry at the end of the insight
list. -/
theorem failure_leaves_state_consistent :
    (∀ (createFails : String → Bool) (s : RegistryState) (t : String)
        (e : ToolError),
        (get_pool createFails s t).1 = .error e →
        (get_pool createFails s t).2 = s)
  ∧ (∀ (createFails : String → Bool) (s : RegistryState) (t : String),
        hasDot t = true → s.pools.lookup (extract_db t) = none →
        createFails (extract_db t) = true →
        get_pool createFails s t = (.error .poolCreationFailed, s))
  ∧ (∀ (insights : List String) (insight : String),
        (append_insight insights insight).insights = insights ++ [insight]) := by
  refine ⟨?_, ?_, ?_⟩
  · intro cf s t e h
    unfold get_pool at h ⊢
    by_cases hd : hasDot t
    · simp only [hd, if_true] at h ⊢
      cases hl : s.pools.lookup (extract_db t) with
      | some p => simp [hl] at h
      | none =>
        by_cases hc : cf (extract_db t)
        · simp [hl, hc]
        · simp [hl, hc] at h
    · simp [hd]
  · intro cf s t hd hl hc
    unfold get_pool
    simp [hd, hl, hc]
  · intro ins i
    rfl

theorem failure_leaves_state_consistent_witness :
    (get_pool (fun _ => true) initRegistry "test1.wx_record").2 = initRegistry
  ∧ get_pool (fun _ => true) initRegistry "test1.wx_record"
      = (.error .poolCreationFailed, initRegistry)
  ∧ (append_insight ["本月用户活跃度较上月提升20%"] "新洞察").insights
      = ["本月用户活跃度较上月提升20%", "新洞察"] :=
  ⟨failure_leaves_state_consistent.1 _ _ _ .poolCreationFailed rfl,
   failure_leaves_state_consistent.2.1 _ _ _ (by decide) rfl (by decide),
   failure_leaves_state_consistent.2.2 _ _⟩

/-- C8: a failure inside `report_generate`'s generation pipeline is
caught and turned into the failure string `报告生成失败: <error>` — a string
prefixed distinctly from success output, which is the pipeline's own text
unchanged — rather than propagated; consequently the `report` tool call
returns an `.ok` string for every pipeline oracle once validation, pool
resolution and query execution have succeeded. -/
theorem report_failure_to_string :
    (∀ (data : List Row) (desc : String) (e : String),
        report_generate (.error e) data desc false = "报告生成失败: " ++ e)
  ∧ (∀ (data : List Row) (desc : String) (e : String),
        "报告生成失败: ".data.isPrefixOf
          (report_generate (.error e) data desc false).data = true)
  ∧ (∀ (data : List Row) (desc : String) (r : String),
        report_generate (.ok r) data desc false = r)
  ∧ (∀ (createFails : String → Bool) (exec : Nat → String → Except String (List Row))
        (rag : Except String String) (table_names : List String) (desc : String)
        (s : RegistryState) (q : String) (p : Nat) (s' : RegistryState)
        (rows : List Row),
        validate_select q = true →
        get_pool createFails s (table_names.headD "") = (.ok p, s') →
        exec p q = .ok rows →
        reportTool createFails exec rag table_names desc s q
          = (.ok (report_generate rag rows desc true), s')) := by
  refine ⟨?_, ?_, ?_, ?_⟩
  · intro data desc e
    rfl
  · intro data desc e
    show "报告生成失败: ".data.isPrefixOf ("报告生成失败: " ++ e).data = true
    rw [String.data_append, List.isPrefixOf_iff_prefix]
    exact List.prefix_append _ _
  · intro data desc r
    rfl
  · intro cf exec rag tn desc s q p s' rows hv hp he
    unfold reportTool
    simp only [hv, if_true, hp, he]

theorem report_failure_to_string_witness :
    report_generate (.error "connection refused") [] "微信群聊数据" false
      = "报告生成失败: connection refused"
  ∧ "报告生成失败: ".data.isPrefixOf
      (report_generate (.error "connection refused") [] "微信群聊数据" false).data
      = true
  ∧ report_generate (.ok "一份报告") [] "微信群聊数据" false = "一份报告"
  ∧ reportTool (fun _ => false) (fun _ _ => .ok []) (.error "rag down")
      ["test1.wx_record"] "微信群聊数据" initRegistry "SELECT 1"
      = (.ok (report_generate (.error "rag down") [] "微信群聊数据" true),
         ⟨[("test1", 0)], 1⟩) :=
  ⟨report_failure_to_string.1 [] "微信群聊数据" "connection refused",
   report_failure_to_string.2.1 [] "微信群聊数据" "connection refused",
   report_failure_to_string.2.2.1 [] "微信群聊数据" "一份报告",
   report_failure_to_string.2.2.2 _ _ _ _ _ _ _ 0 _ [] (by decide) rfl rfl⟩

/-- C9: the validation in `query` and `report` is a pure character-prefix
check on the query string alone: it holds exactly when `SELECT` is a
character prefix of the stripped, upper-cased text, so a query beginning
with `SELECTION` — where `SELECT` is not a standalone token — passes,
including in lower case. -/
theorem validate_is_pure_prefix_check :
    (∀ q : String, validate_select q
        = "SELECT".data.isPrefixOf ((pyStrip q.data).map Char.toUpper))
  ∧ (∀ rest : String, validate_select ("SELECTION" ++ rest) = true)
  ∧ validate_select "selection from wx_record" = true :=
  ⟨fun _ => rfl, validate_selection, by decide⟩

/-- C10: every successful `append_insight` call sends the
resource-updated notification for `memo://insights`, which is a different
URI from the one under which the memo resource is registered
(`memo://business_insights`); the two URIs are never equal. -/
theorem notified_uri_differs_from_resource_uri :
    ∀ (insights : List String) (insight : String),
      (append_insight insights insight).notifiedUri = "memo://insights"
      ∧ memoResourceUri = "memo://business_insights"
      ∧ (append_insight insights insight).notifiedUri ≠ memoResourceUri := by
  intro ins i
  refine ⟨rfl, rfl, ?_⟩
  show ("memo://insights" : String) ≠ "memo://business_insights"
  decide

end WxChatInsight
